import Mathlib

/-!
Shallow embedding of `threestation/config.py`: station-pair canonicalization
(`get_order`), receiver grouping (`group_sta`), dispersion-curve resolution
(`get_pred_pv`), artifact path resolution (`get_fnm`), parameter validation
(`_check` and the module-level wavetype/operator normalization), and metadata
extraction (`_meta`).

Modelling conventions:
- Python exceptions become an explicit error type `Err`; fallible functions
  return `Except Err _`.
- Python module-level globals (`PARAM`, `DIROUT`, `ALL_STATION`, `PHPRPER`,
  `PHPRVEL`, `PRED_PV`, `USE_CW`, `USE_DW`, `CONV`) become explicit parameters.
- Python dicts become association lists with unique keys maintained by an
  upsert (`dict_insert`); lookup takes the first matching binding.
- `os.path.join` becomes interleaving components with "/"; `os.path.basename`
  and `os.path.dirname` split on "/".
- `float(...)` parsing of coordinate columns is abstracted to the raw token
  text: the claims under study only move these values around, never compute
  with them.
- The `mkdir` side effect of `get_fnm` is reified: `get_fnm` returns the list
  of directories it would create alongside the path(s).
-/

deriving instance DecidableEq for Except

namespace ThreeStation

/-- Python exception classes raised by `config.py`. -/
inductive Err : Type
  | valueError (msg : String)
  | notImplementedError (msg : String)
  | keyError (key : String)
  | indexError
deriving DecidableEq, Repr

/-- Python `str.upper()` (ASCII), modeled over the character list. -/
def py_upper (s : String) : String :=
  String.mk (s.data.map Char.toUpper)

/-- Python `str.lower()` (ASCII), modeled over the character list. -/
def py_lower (s : String) : String :=
  String.mk (s.data.map Char.toLower)

/-- Python `str(x)` on an optional string: `str(None) = "None"`. -/
def pystr (o : Option String) : String :=
  match o with
  | some s => s
  | none => "None"

/-- `os.path.join` over components (model: interleave with "/"). -/
def pjoin (xs : List String) : String :=
  String.intercalate "/" xs

/-- `os.path.basename`: the characters after the last "/" (the whole string
when there is no "/"). -/
def basename (p : String) : String :=
  String.mk ((p.data.reverse.takeWhile (fun c => c != '/')).reverse)

/-- `os.path.dirname`: the characters before the last "/" (empty when there
is no "/"; the stripping of repeated trailing slashes is not modeled). -/
def dirname (p : String) : String :=
  String.mk (((p.data.reverse.dropWhile (fun c => c != '/')).drop 1).reverse)

/-- Python `list.index`, returning `none` where Python raises `ValueError`. -/
def list_index {α : Type} [DecidableEq α] : List α → α → Option Nat
  | [], _ => none
  | a :: rest, x => if a = x then some 0 else (list_index rest x).map (· + 1)

/-- Association-list model of Python dict lookup (`d[k]` / `k in d`). -/
def dict_lookup {K V : Type} [DecidableEq K] (d : List (K × V)) (k : K) :
    Option V :=
  match d with
  | [] => none
  | p :: rest => if p.1 = k then some p.2 else dict_lookup rest k

/-- Association-list model of Python dict update `d[k] = v`: overwrite the
existing binding in place, else append a new binding. -/
def dict_insert {K V : Type} [DecidableEq K] (d : List (K × V)) (k : K)
    (v : V) : List (K × V) :=
  match d with
  | [] => [(k, v)]
  | p :: rest => if p.1 = k then (k, v) :: rest else p :: dict_insert rest k v

/-!
## Configuration object

Mirrors the nested `PARAM` dictionary fields that `config.py` reads; booleans
and the lag count are given their schema types.
-/

structure DirCfg : Type where
  project : String
  out : String
  meta : String
  I2 : String
  I3 : String
  I3_rand : String
deriving DecidableEq, Repr

structure SfxCfg : Type where
  I2 : String
  source : String
deriving DecidableEq, Repr

structure WriteCfg : Type where
  lag : Bool
deriving DecidableEq, Repr

structure InterferometryCfg : Type where
  nlag : Nat
  flip_nlag : Bool
  spz : Bool
  Welch : Bool
  operator : String
deriving DecidableEq, Repr

structure MiscCfg : Type where
  wavetype : String
deriving DecidableEq, Repr

structure Config : Type where
  dir : DirCfg
  sfx : SfxCfg
  write : WriteCfg
  interferometry : InterferometryCfg
  misc : MiscCfg
deriving DecidableEq, Repr

/-- `DIROUT = join(PARAM['dir']['project'], PARAM['dir']['out'])`. -/
def DIROUT (cfg : Config) : String :=
  pjoin [cfg.dir.project, cfg.dir.out]

/-!
## `group_sta`
-/

/-- The partition loop of `group_sta`: `for k, st in enumerate(lst)` reads
`lnum[k]`, so walking the two lists in lockstep raises `IndexError` exactly
when the label list is exhausted before the station list. Stations whose
label equals `num[0]` go to the first group, the rest to the second. -/
def group_sta_go {α β : Type} [DecidableEq β] (n0 : β) :
    List α → List β → Except Err (List α × List α)
  | [], _ => .ok ([], [])
  | _ :: _, [] => .error .indexError
  | st :: rest, lab :: labs =>
    match group_sta_go n0 rest labs with
    | .error e => .error e
    | .ok (g0, g1) =>
      if lab = n0 then .ok (st :: g0, g1) else .ok (g0, st :: g1)

/-- `group_sta(lst, lnum)`: `num = list(set(lnum))` (Python set order is
unspecified; we use `List.dedup` as the canonical distinct-value list), raise
`ValueError` unless exactly two distinct labels, else partition by comparison
with `num[0]`. -/
def group_sta {α β : Type} [DecidableEq β] (lst : List α) (lnum : List β) :
    Except Err (List α × List α) :=
  match lnum.dedup with
  | [n0, _] => group_sta_go n0 lst lnum
  | _ => .error (.valueError "# of group != 2.")

/-!
## `get_order`
-/

/-- `get_order(lst, st1, st2)`: sort the two stations by their (first) index
in `lst`; `lst.index` raises `ValueError` for an absent element. -/
def get_order {α : Type} [DecidableEq α] (lst : List α) (st1 st2 : α) :
    Except Err (α × α) :=
  match list_index lst st1 with
  | none => .error (.valueError "is not in list")
  | some id1 =>
    match list_index lst st2 with
    | none => .error (.valueError "is not in list")
    | some id2 =>
      if id1 ≤ id2 then .ok (st1, st2) else .ok (st2, st1)

/-!
## `get_pred_pv`
-/

/-- The pair key `'_'.join([n1, s1, n2, s2])`. -/
def pair_key (n1 s1 n2 s2 : String) : String :=
  String.intercalate "_" [n1, s1, n2, s2]

/-- `get_pred_pv(n1, s1, n2, s2, pair, pair_r)` with the globals `PHPRPER`,
`PHPRVEL`, `PRED_PV` passed explicitly. `if PRED_PV:` is false for `None` and
for an empty dict, returning the global curve; otherwise the forward key is
looked up first, then the reversed key, else the global curve is returned.
`np.asarray` is the identity in this model; curve payloads are an arbitrary
type `V`. -/
def get_pred_pv {V : Type} (PHPRPER PHPRVEL : V)
    (PRED_PV : Option (List (String × (V × V)))) (n1 s1 n2 s2 : String)
    (pair pair_r : Option String) : V × V :=
  match PRED_PV with
  | none => (PHPRPER, PHPRVEL)
  | some d =>
    if d.isEmpty then (PHPRPER, PHPRVEL)
    else
      let pairK : String :=
        match pair with
        | none => pair_key n1 s1 n2 s2
        | some p => p
      let pairRK : Option String :=
        match pair with
        | none => some (pair_key n2 s2 n1 s1)
        | some _ => pair_r
      match dict_lookup d pairK with
      | some c => c
      | none =>
        match pairRK.bind (fun k => dict_lookup d k) with
        | some c => c
        | none => (PHPRPER, PHPRVEL)

/-!
## `get_fnm`
-/

/-- Result of `get_fnm`: a single path or a list of paths. -/
inductive Fnm : Type
  | one (path : String)
  | many (paths : List String)
deriving DecidableEq, Repr

/-- The dispatch of `get_fnm` after the station pair has been canonicalized:
`kindU` is the upper-cased kind, `src`/`rec` the ordered pair, `I2b` the
basename of the supplied I2 path (if any). The second component of the result
lists directories created as a side effect (`mkdir` under
`PARAM['write']['lag']`). -/
def fnm_dispatch (cfg : Config) (kindU : String)
    (sta3 lags pre I2b : Option String) (src rec : Option String) :
    Except Err (Fnm × List String) :=
  if kindU = "I2" then
    .ok (.one (pjoin [cfg.dir.project, cfg.dir.I2, pystr src,
      "COR_" ++ pystr src ++ "_" ++ pystr rec ++ ".SAC"]), [])
  else if kindU = "I2_LAG_PROC" then
    .ok (.one (pjoin [DIROUT cfg, pystr src,
      pystr pre ++ "_COR_" ++ pystr src ++ "_" ++ pystr rec ++ ".SAC"]), [])
  else if kindU = "C3" then
    .ok (.one (pjoin [DIROUT cfg, pystr src, pystr rec,
      pystr sta3 ++ "_" ++ pystr lags ++ "_" ++ pystr src ++ "_" ++
        pystr rec ++ ".SAC"]), [])
  else if kindU = "I3" then
    .ok (.one (pjoin [DIROUT cfg, cfg.dir.I3, pystr src,
      "I3_" ++ pystr src ++ "_" ++ pystr rec ++ ".SAC"]), [])
  else if kindU = "I3_RAND" then
    .ok (.one (pjoin [DIROUT cfg, cfg.dir.I3_rand, pystr src, pystr rec,
      "I3_" ++ pystr src ++ "_" ++ pystr rec ++ ".SAC"]), [])
  else if kindU = "I2_LAG_RAW" then
    let stadir := pjoin [DIROUT cfg, pystr src]
    let made : List String := if cfg.write.lag then [stadir] else []
    if cfg.interferometry.nlag = 2 then
      .ok (.many [pjoin [stadir, "P_" ++ pystr I2b],
                  pjoin [stadir, "N_" ++ pystr I2b]], made)
    else
      .ok (.many [pjoin [stadir, "S_" ++ pystr I2b]], made)
  else
    .error (.valueError ("Unknow kind of file: " ++ kindU ++ "."))

/-- `get_fnm(kind, sta1, sta2, sta3, lags, pre, I2)` with the globals
`PARAM`/`DIROUT` (as `cfg`) and `ALL_STATION` passed explicitly. The kind is
upper-cased before dispatch; `I2_PATH` and `SOURCE`/`SOURCE-STATION` return
fixed paths without touching the stations; otherwise, if an I2 path is
supplied, `sta2` and the base filename are extracted from it, and the pair is
canonicalized by `get_order` over `ALL_STATION` (station arguments are
optional in Python, so the order lookup runs over `ALL_STATION.map some`). -/
def get_fnm (cfg : Config) (ALL_STATION : List String) (kind : String)
    (sta1 sta2 sta3 lags pre I2 : Option String) :
    Except Err (Fnm × List String) :=
  let kindU := py_upper kind
  if kindU = "I2_PATH" then
    .ok (.one (pjoin [DIROUT cfg, cfg.dir.meta, cfg.dir.out ++ cfg.sfx.I2]),
      [])
  else if kindU = "SOURCE" ∨ kindU = "SOURCE-STATION" then
    .ok (.one (pjoin [DIROUT cfg, cfg.dir.meta,
      cfg.dir.out ++ cfg.sfx.source]), [])
  else
    let sta2b : Option String :=
      match I2 with
      | some p => some (basename (dirname p))
      | none => sta2
    let I2b : Option String :=
      match I2 with
      | some p => some (basename p)
      | none => I2
    match get_order (ALL_STATION.map some) sta1 sta2b with
    | .error e => .error e
    | .ok (src, rec) => fnm_dispatch cfg kindU sta3 lags pre I2b src rec

/-!
## `_check`
-/

/-- `_check()` with the globals `USE_CW`, `USE_DW`, `CONV` and `PARAM` passed
explicitly. Warnings (`logger.warning`) are reified as the returned list of
warning messages; apostrophes of the source messages are omitted. -/
def _check (USE_CW USE_DW CONV : Bool) (p : Config) :
    Except Err (List String) :=
  let step1 : Except Err (List String) :=
    if USE_CW then
      if CONV then .error (.valueError "NO convolution of coda")
      else if p.interferometry.spz then
        .ok ["Using stationary phase zone for coda"]
      else .ok []
    else if USE_DW then
      if p.interferometry.Welch then
        .error (.valueError "NOT use Welch method for direct-wave")
      else .ok []
    else .ok []
  match step1 with
  | .error e => .error e
  | .ok warns =>
    if p.interferometry.nlag = 4 ∧ ¬ p.interferometry.flip_nlag then
      .error (.notImplementedError "4 lags MUST use the symmetric component")
    else .ok warns

/-!
## Module-level wavetype / operator normalization
-/

/-- The module-level wavetype normalization: returns `(USE_CW, USE_DW)`. -/
def parse_wavetype (wavetype : String) : Except Err (Bool × Bool) :=
  if py_lower wavetype ∈ ["cw", "coda", "coda wave", "coda-wave"] then
    .ok (true, false)
  else if py_lower wavetype ∈ ["dw", "direct wave", "direct-wave"] then
    .ok (false, true)
  else
    .error (.valueError ("Unknown type of signal " ++ wavetype))

/-- The module-level operator normalization: returns `(CONV, CORR)`. The
unknown-operator error message interpolates `PARAM['interferometry']['type']`
— a key distinct from the `operator` key just read — so building the message
raises `KeyError` when the configuration has no `type` entry (`typ := none`),
and otherwise names that unrelated value. -/
def parse_operator (operator : String) (typ : Option String) :
    Except Err (Bool × Bool) :=
  if py_lower operator ∈ ["conv", "convolution"] then
    .ok (true, false)
  else if py_lower operator ∈ ["corr", "correlation"] then
    .ok (false, true)
  else
    match typ with
    | none => .error (.keyError "type")
    | some t => .error (.valueError ("Unknown operator " ++ t))

/-!
## `_meta`
-/

/-- The module-level globals overwritten by `_meta`. Coordinates are kept as
their raw column text (`float` parsing abstracted). -/
structure MetaState : Type where
  STA2NET : List (String × String)
  STNM2LOLA : List (String × (String × String))
  ALL_STATION : List String
  RECEIVER_STATION : List String
  RECEIVER_GROUP : Option (List String)
  SOURCE_STATION : List String
deriving DecidableEq, Repr

/-- The initial (module-import-time) state of the `_meta` globals. -/
def metaState0 : MetaState :=
  { STA2NET := []
    STNM2LOLA := []
    ALL_STATION := []
    RECEIVER_STATION := []
    RECEIVER_GROUP := none
    SOURCE_STATION := [] }

/-- Python `lst[i]` on a token list: the accessor used by the `_meta`
reading loop (`None` models the out-of-range `IndexError` site). -/
def col (l : List String) (i : Nat) : Option String :=
  l.get? i

/-- The station-list reading loop of `_meta`: for each (pre-tokenized) line,
`key = lst[col_sta]`, `STNM2LOLA[key] = [lst[col_lon], lst[col_lat]]`,
`STA2NET[key] = lst[col_net]`, `ALL_STATION.append(key)`; a missing column
raises `IndexError`. -/
def parse_station_lines (col_net col_sta col_lon col_lat : Nat) :
    List (List String) → MetaState → Except Err MetaState
  | [], st => .ok st
  | line :: rest, st =>
    match col line col_sta with
    | none => .error .indexError
    | some key =>
      match col line col_lon, col line col_lat, col line col_net with
      | some lon, some lat, some net =>
        parse_station_lines col_net col_sta col_lon col_lat rest
          { st with
            STNM2LOLA := dict_insert st.STNM2LOLA key (lon, lat)
            STA2NET := dict_insert st.STA2NET key net
            ALL_STATION := st.ALL_STATION ++ [key] }
      | _, _, _ => .error .indexError

/-- Modelled from the spec: `my.fio.rcol(f, col)[0]` (the external `pymodule`
helper, not part of this repository) reads one whitespace-delimited column of
a text file; the first element of its return value is the list of that
column's entries in file order. -/
def rcol (lines : List (List String)) (col : Nat) : List String :=
  lines.map (fun l => l.getD col "")

/-- The input files of `_meta`, pre-tokenized: the station-list file, the
receiver-role file (with `PARAM['fstation']['receiver']['group']` deciding
whether a group column is read), and the source-role file. -/
structure MetaFiles : Type where
  station_lines : List (List String)
  receiver_lines : List (List String)
  receiver_has_group : Bool
  source_lines : List (List String)
deriving DecidableEq, Repr

/-- `_meta(name, col_net, col_sta, col_lon, col_lat)`: append every station
line's id to `ALL_STATION` and upsert the two dicts, then reassign
`RECEIVER_STATION`, `RECEIVER_GROUP` and `SOURCE_STATION` from the role
files. The prior global state is passed in and the updated state returned. -/
def _meta (col_net col_sta col_lon col_lat : Nat) (files : MetaFiles)
    (st : MetaState) : Except Err MetaState :=
  match parse_station_lines col_net col_sta col_lon col_lat
      files.station_lines st with
  | .error e => .error e
  | .ok st1 =>
    .ok { st1 with
      RECEIVER_STATION := rcol files.receiver_lines 0
      RECEIVER_GROUP :=
        if files.receiver_has_group then some (rcol files.receiver_lines 1)
        else none
      SOURCE_STATION := rcol files.source_lines 0 }

/-!
## Lemmas about `list_index` and `get_order`
-/

theorem list_index_none_iff {α : Type} [DecidableEq α] (lst : List α)
    (x : α) : list_index lst x = none ↔ x ∉ lst := by
  induction lst with
  | nil => simp [list_index]
  | cons a rest ih =>
    by_cases h : a = x
    · simp [list_index, h]
    · simp [list_index, h, Option.map_eq_none', ih, Ne.symm h]

theorem list_index_mem {α : Type} [DecidableEq α] {lst : List α} {x : α}
    (h : x ∈ lst) : ∃ i, list_index lst x = some i := by
  cases hi : list_index lst x with
  | none => exact absurd ((list_index_none_iff lst x).mp hi) (by simp [h])
  | some i => exact ⟨i, rfl⟩

theorem list_index_inj {α : Type} [DecidableEq α] :
    ∀ (lst : List α) (x y : α) (i : Nat), list_index lst x = some i →
      list_index lst y = some i → x = y := by
  intro lst
  induction lst with
  | nil => intro x y i hx _; simp [list_index] at hx
  | cons a rest ih =>
    intro x y i hx hy
    by_cases hax : a = x
    · subst hax
      simp [list_index] at hx
      by_cases hay : a = y
      · exact hay
      · simp [list_index, hay] at hy
        rcases hy with ⟨j, _, hji⟩
        omega
    · simp [list_index, hax] at hx
      rcases hx with ⟨i1, hi1, hi1e⟩
      by_cases hay : a = y
      · subst hay
        simp [list_index] at hy
        omega
      · simp [list_index, hay] at hy
        rcases hy with ⟨i2, hi2, hi2e⟩
        have : i1 = i2 := by omega
        subst this
        exact ih x y i1 hi1 hi2

theorem get_order_comm {α : Type} [DecidableEq α] (lst : List α) (x y : α)
    (hx : x ∈ lst) (hy : y ∈ lst) :
    get_order lst x y = get_order lst y x := by
  obtain ⟨i, hi⟩ := list_index_mem hx
  obtain ⟨j, hj⟩ := list_index_mem hy
  simp only [get_order, hi, hj]
  by_cases hij : i ≤ j
  · by_cases hji : j ≤ i
    · have hij2 : i = j := le_antisymm hij hji
      subst hij2
      have hxy : x = y := list_index_inj lst x y i hi hj
      subst hxy
      simp
    · simp [hij, hji]
  · have hji : j ≤ i := le_of_not_le hij
    simp [hij, hji, fun h => hij (le_of_eq h)]

/-- C2: `get_order(lst, st1, st2)` returns `(st1, st2)` when the index of
`st1` in `lst` is `≤` the index of `st2` and `(st2, st1)` otherwise, is
argument-order independent for stations present in `lst`, and fails with the
not-in-list error when either station is absent. -/
theorem get_order_spec {α : Type} [DecidableEq α] (lst : List α)
    (st1 st2 : α) :
    (∀ i1 i2, list_index lst st1 = some i1 → list_index lst st2 = some i2 →
      get_order lst st1 st2 =
        .ok (if i1 ≤ i2 then (st1, st2) else (st2, st1))) ∧
    (st1 ∈ lst → st2 ∈ lst →
      get_order lst st1 st2 = get_order lst st2 st1) ∧
    (st1 ∉ lst ∨ st2 ∉ lst →
      get_order lst st1 st2 = .error (.valueError "is not in list")) := by
  refine ⟨?_, ?_, ?_⟩
  · intro i1 i2 h1 h2
    simp only [get_order, h1, h2]
    by_cases h : i1 ≤ i2 <;> simp [h]
  · exact fun h1 h2 => get_order_comm lst st1 st2 h1 h2
  · intro h
    rcases h with h | h
    · have hn := (list_index_none_iff lst st1).mpr h
      simp [get_order, hn]
    · cases hi : list_index lst st1 with
      | none => simp [get_order, hi]
      | some i =>
        have hn := (list_index_none_iff lst st2).mpr h
        simp [get_order, hi, hn]

/-- Witness for C2 at concrete inputs. -/
theorem get_order_spec_witness :
    get_order ["AA", "BB", "CC"] "CC" "AA" = .ok ("AA", "CC") ∧
    get_order ["AA", "BB", "CC"] "AA" "ZZ" =
      .error (.valueError "is not in list") := by
  constructor
  · have h := (get_order_spec ["AA", "BB", "CC"] "CC" "AA").1 2 0
      (by decide) (by decide)
    simpa using h
  · exact (get_order_spec ["AA", "BB", "CC"] "AA" "ZZ").2.2
      (Or.inr (by decide))

/-!
## Lemmas about `get_fnm` (pair symmetry)
-/

theorem list_index_map_some {α : Type} [DecidableEq α] (lst : List α)
    (x : α) : list_index (lst.map some) (some x) = list_index lst x := by
  induction lst with
  | nil => simp [list_index]
  | cons a rest ih => by_cases h : a = x <;> simp [list_index, h, ih]

theorem get_fnm_swap (cfg : Config) (all : List String) (kind : String)
    (a b : String) (ha : a ∈ all) (hb : b ∈ all)
    (sta3 lags pre : Option String) :
    get_fnm cfg all kind (some a) (some b) sta3 lags pre none =
      get_fnm cfg all kind (some b) (some a) sta3 lags pre none := by
  have hcomm := get_order_comm (all.map some) (some a) (some b)
    (List.mem_map_of_mem _ ha) (List.mem_map_of_mem _ hb)
  by_cases h1 : py_upper kind = "I2_PATH"
  · simp [get_fnm, h1]
  · by_cases h2 : py_upper kind = "SOURCE" ∨ py_upper kind = "SOURCE-STATION"
    · simp [get_fnm, h1, h2]
    · simp [get_fnm, h1, h2, hcomm]

/-- C1: for every pair-requiring artifact kind and stations `a`, `b` in the
canonical list, `get_fnm` returns the same path(s) and side effects for
`(sta1 = a, sta2 = b)` as for `(sta1 = b, sta2 = a)` (no I2 path supplied,
other arguments held fixed); and for kind `I2`, when `a` precedes `b` in the
list, the returned path contains `COR_a_b` regardless of argument order. -/
theorem get_fnm_pair_symmetric (cfg : Config) (all : List String)
    (kind : String)
    (hkind : kind ∈
      ["I2", "I2_LAG_PROC", "C3", "I3", "I3_RAND", "I2_LAG_RAW"])
    (a b : String) (ha : a ∈ all) (hb : b ∈ all)
    (sta3 lags pre : Option String) :
    get_fnm cfg all kind (some a) (some b) sta3 lags pre none =
      get_fnm cfg all kind (some b) (some a) sta3 lags pre none ∧
    (kind = "I2" → ∀ i1 i2, list_index all a = some i1 →
      list_index all b = some i2 → i1 ≤ i2 →
      ∃ u,
        get_fnm cfg all kind (some a) (some b) sta3 lags pre none =
          .ok (.one (u ++ ("COR_" ++ a ++ "_" ++ b ++ ".SAC")), []) ∧
        get_fnm cfg all kind (some b) (some a) sta3 lags pre none =
          .ok (.one (u ++ ("COR_" ++ a ++ "_" ++ b ++ ".SAC")), [])) := by
  have hswap := get_fnm_swap cfg all kind a b ha hb sta3 lags pre
  refine ⟨hswap, ?_⟩
  rintro rfl i1 i2 h1 h2 hle
  have horder : get_order (all.map some) (some a) (some b) =
      .ok (some a, some b) := by
    have h := (get_order_spec (all.map some) (some a) (some b)).1 i1 i2
      (by rw [list_index_map_some]; exact h1)
      (by rw [list_index_map_some]; exact h2)
    simpa [hle] using h
  have hup : py_upper "I2" = "I2" := by decide
  refine ⟨cfg.dir.project ++ "/" ++ cfg.dir.I2 ++ "/" ++ a ++ "/", ?_, ?_⟩
  · simp [get_fnm, horder, fnm_dispatch, pystr, pjoin, String.intercalate,
      String.intercalate.go, String.append_assoc, hup]
  · rw [← hswap]
    simp [get_fnm, horder, fnm_dispatch, pystr, pjoin, String.intercalate,
      String.intercalate.go, String.append_assoc, hup]

/-- A concrete configuration used by the evaluation witnesses. -/
def cfgW : Config :=
  { dir :=
      { project := "proj"
        out := "outdir"
        meta := "metadir"
        I2 := "CORdir"
        I3 := "I3dir"
        I3_rand := "I3rand" }
    sfx := { I2 := "_I2.txt", source := "_src.txt" }
    write := { lag := true }
    interferometry :=
      { nlag := 2
        flip_nlag := true
        spz := false
        Welch := false
        operator := "corr" }
    misc := { wavetype := "coda" } }

/-- Witness for C1: with `STA1` preceding `STA2`, the `I2` path carries
`COR_STA1_STA2` even when `STA2` is passed first. -/
theorem get_fnm_pair_symmetric_witness :
    ∃ u,
      get_fnm cfgW ["STA1", "STA2"] "I2" (some "STA2") (some "STA1")
          none none none none =
        .ok (.one (u ++ ("COR_" ++ "STA1" ++ "_" ++ "STA2" ++ ".SAC")),
          []) := by
  have h := (get_fnm_pair_symmetric cfgW ["STA1", "STA2"] "I2" (by decide)
    "STA1" "STA2" (by decide) (by decide) none none none).2 rfl 0 1
    (by decide) (by decide) (by decide)
  rcases h with ⟨u, _, h2⟩
  exact ⟨u, h2⟩

/-- C10: the `kind` argument of `get_fnm` is upper-cased before dispatch, so
any spelling whose upper-casing is `I2_PATH` resolves to the fixed I2-path
summary file, and any spelling upper-casing to `SOURCE` (the alias) or
`SOURCE-STATION` resolves to the fixed source-station file; the station
arguments are ignored for these kinds (they are quantified arbitrarily here,
including `none` and ids absent from the catalog) and resolution never
fails. -/
theorem get_fnm_fixed_kinds (cfg : Config) (all : List String)
    (kind : String) (sta1 sta2 sta3 lags pre I2 : Option String) :
    (py_upper kind = "I2_PATH" →
      get_fnm cfg all kind sta1 sta2 sta3 lags pre I2 =
        .ok (.one (pjoin [DIROUT cfg, cfg.dir.meta,
          cfg.dir.out ++ cfg.sfx.I2]), [])) ∧
    ((py_upper kind = "SOURCE" ∨ py_upper kind = "SOURCE-STATION") →
      get_fnm cfg all kind sta1 sta2 sta3 lags pre I2 =
        .ok (.one (pjoin [DIROUT cfg, cfg.dir.meta,
          cfg.dir.out ++ cfg.sfx.source]), [])) := by
  constructor
  · intro h
    simp [get_fnm, h]
  · rintro (h | h) <;> simp [get_fnm, h]

/-- Witness for C10: lower-case kind spellings, no stations, empty catalog. -/
theorem get_fnm_fixed_kinds_witness :
    get_fnm cfgW [] "i2_path" none none none none none none =
      .ok (.one (pjoin [DIROUT cfgW, cfgW.dir.meta,
        cfgW.dir.out ++ cfgW.sfx.I2]), []) ∧
    get_fnm cfgW [] "Source" none none none none none none =
      .ok (.one (pjoin [DIROUT cfgW, cfgW.dir.meta,
        cfgW.dir.out ++ cfgW.sfx.source]), []) := by
  constructor
  · exact (get_fnm_fixed_kinds cfgW [] "i2_path"
      none none none none none none).1 (by decide)
  · exact (get_fnm_fixed_kinds cfgW [] "Source"
      none none none none none none).2 (Or.inl (by decide))

/-- C5: resolving `I2_LAG_RAW` with an existing I2 path supplied extracts the
receiver id (`basename (dirname p)`) and the base filename (`basename p`)
from that path before canonical ordering (the `sta2` argument is ignored);
the result is the two sibling lag paths `P_`/`N_` under `<out>/<src>/` when
`nlag = 2` and the single `S_` path otherwise, and the directory-creation
side effect happens exactly when the write-lag option is enabled. -/
theorem get_fnm_I2_LAG_RAW_spec (cfg : Config) (all : List String)
    (s1 p : String) (sta2 sta3 lags pre : Option String)
    (osrc orec : Option String)
    (hord : get_order (all.map some) (some s1)
      (some (basename (dirname p))) = .ok (osrc, orec)) :
    get_fnm cfg all "I2_LAG_RAW" (some s1) sta2 sta3 lags pre (some p) =
      .ok
        (if cfg.interferometry.nlag = 2 then
          .many [pjoin [DIROUT cfg, pystr osrc, "P_" ++ basename p],
                 pjoin [DIROUT cfg, pystr osrc, "N_" ++ basename p]]
         else .many [pjoin [DIROUT cfg, pystr osrc, "S_" ++ basename p]],
         if cfg.write.lag then [pjoin [DIROUT cfg, pystr osrc]] else []) := by
  have hup : py_upper "I2_LAG_RAW" = "I2_LAG_RAW" := by decide
  by_cases hn : cfg.interferometry.nlag = 2 <;>
    by_cases hw : cfg.write.lag <;>
      simp [get_fnm, hup, hord, fnm_dispatch, pystr, pjoin,
        String.intercalate, String.intercalate.go, String.append_assoc,
        hn, hw]

/-- Witness for C5 at a concrete I2 path; the `sta2` argument is a dummy id
absent from the catalog, showing it is ignored. -/
theorem get_fnm_I2_LAG_RAW_spec_witness :
    get_fnm cfgW ["SS", "RR"] "I2_LAG_RAW" (some "SS") (some "ignored")
        none none none (some "base/RR/COR_RR_XX.SAC") =
      .ok (.many [pjoin [DIROUT cfgW, "SS", "P_COR_RR_XX.SAC"],
                  pjoin [DIROUT cfgW, "SS", "N_COR_RR_XX.SAC"]],
           [pjoin [DIROUT cfgW, "SS"]]) := by
  have h := get_fnm_I2_LAG_RAW_spec cfgW ["SS", "RR"] "SS"
    "base/RR/COR_RR_XX.SAC" (some "ignored") none none none
    (some "SS") (some "RR") (by decide)
  simpa using h

/-!
## `get_pred_pv` (C3)
-/

/-- C3: with the pair table absent (`none`) or empty, `get_pred_pv` returns
the global curve unconditionally; otherwise the forward key
`n1_s1_n2_s2` is looked up first (so it wins when both directions are
present), then the reversed key `n2_s2_n1_s1` (so a reversed-direction query
still finds a curve stored under the forward direction), and the global
curve is returned when neither key is present. -/
theorem get_pred_pv_spec {V : Type} (per pv : V)
    (d : List (String × (V × V))) (n1 s1 n2 s2 : String) :
    (get_pred_pv per pv none n1 s1 n2 s2 none none = (per, pv)) ∧
    (get_pred_pv per pv (some []) n1 s1 n2 s2 none none = (per, pv)) ∧
    (∀ c, dict_lookup d (pair_key n1 s1 n2 s2) = some c →
      get_pred_pv per pv (some d) n1 s1 n2 s2 none none = c) ∧
    (dict_lookup d (pair_key n1 s1 n2 s2) = none →
      ∀ c, dict_lookup d (pair_key n2 s2 n1 s1) = some c →
        get_pred_pv per pv (some d) n1 s1 n2 s2 none none = c) ∧
    (dict_lookup d (pair_key n1 s1 n2 s2) = none →
      dict_lookup d (pair_key n2 s2 n1 s1) = none →
        get_pred_pv per pv (some d) n1 s1 n2 s2 none none = (per, pv)) := by
  refine ⟨rfl, rfl, ?_, ?_, ?_⟩
  · intro c hc
    cases d with
    | nil => simp [dict_lookup] at hc
    | cons q rest => simp [get_pred_pv, hc]
  · intro hf c hc
    cases d with
    | nil => simp [dict_lookup] at hc
    | cons q rest => simp [get_pred_pv, hf, hc]
  · intro hf hr
    cases d with
    | nil => rfl
    | cons q rest => simp [get_pred_pv, hf, hr]

/-- Witness for C3: a table storing only the forward direction answers the
reversed-direction query with that curve; with both directions present, the
forward entry wins. -/
theorem get_pred_pv_spec_witness :
    get_pred_pv ([10] : List Int) [30]
        (some [("NETA_S1_NETB_S2", ([1], [2]))]) "NETB" "S2" "NETA" "S1"
        none none = ([1], [2]) ∧
    get_pred_pv ([10] : List Int) [30]
        (some [("NETA_S1_NETB_S2", ([1], [2])),
               ("NETB_S2_NETA_S1", ([3], [4]))]) "NETA" "S1" "NETB" "S2"
        none none = ([1], [2]) := by
  constructor
  · exact (get_pred_pv_spec [10] [30] [("NETA_S1_NETB_S2", ([1], [2]))]
      "NETB" "S2" "NETA" "S1").2.2.2.1 (by decide) ([1], [2]) (by decide)
  · exact (get_pred_pv_spec [10] [30]
      [("NETA_S1_NETB_S2", ([1], [2])), ("NETB_S2_NETA_S1", ([3], [4]))]
      "NETA" "S1" "NETB" "S2").2.2.1 ([1], [2]) (by decide)

/-!
## `_check` (C6)
-/

/-- C6: under the program invariant that exactly one of `USE_CW`/`USE_DW` is
set, `_check` fails when coda is combined with the convolution operator, when
direct-wave is combined with the Welch method, and when `nlag = 4` while
`flip_nlag` is disabled; a configuration violating none of these three rules
passes; and coda combined with the stationary-phase-zone option does not
fail — it passes with exactly the warning logged. -/
theorem check_spec (USE_CW USE_DW CONV : Bool) (p : Config)
    (hx : USE_DW = !USE_CW) :
    (USE_CW = true → CONV = true →
      ∃ e, _check USE_CW USE_DW CONV p = .error e) ∧
    (USE_DW = true → p.interferometry.Welch = true →
      ∃ e, _check USE_CW USE_DW CONV p = .error e) ∧
    (p.interferometry.nlag = 4 → p.interferometry.flip_nlag = false →
      ∃ e, _check USE_CW USE_DW CONV p = .error e) ∧
    (¬(USE_CW = true ∧ CONV = true) →
      ¬(USE_DW = true ∧ p.interferometry.Welch = true) →
      ¬(p.interferometry.nlag = 4 ∧ p.interferometry.flip_nlag = false) →
      ∃ w, _check USE_CW USE_DW CONV p = .ok w) ∧
    (USE_CW = true → CONV = false → p.interferometry.spz = true →
      ¬(p.interferometry.nlag = 4 ∧ p.interferometry.flip_nlag = false) →
      _check USE_CW USE_DW CONV p =
        .ok ["Using stationary phase zone for coda"]) := by
  subst hx
  refine ⟨?_, ?_, ?_, ?_, ?_⟩
  · rintro rfl rfl
    exact ⟨.valueError "NO convolution of coda", rfl⟩
  · intro hdw hwelch
    cases USE_CW with
    | true => simp at hdw
    | false =>
      refine ⟨.valueError "NOT use Welch method for direct-wave", ?_⟩
      simp [_check, hwelch]
  · intro hn hf
    cases USE_CW with
    | true =>
      cases CONV with
      | true => exact ⟨.valueError "NO convolution of coda", rfl⟩
      | false =>
        refine ⟨.notImplementedError
          "4 lags MUST use the symmetric component", ?_⟩
        by_cases hs : p.interferometry.spz <;> simp [_check, hs, hn, hf]
    | false =>
      cases hwelch : p.interferometry.Welch with
      | true => exact ⟨.valueError "NOT use Welch method for direct-wave",
          by simp [_check, hwelch]⟩
      | false =>
        refine ⟨.notImplementedError
          "4 lags MUST use the symmetric component", ?_⟩
        simp [_check, hwelch, hn, hf]
  · intro h1 h2 h3
    cases USE_CW with
    | true =>
      cases CONV with
      | true => exact absurd ⟨rfl, rfl⟩ h1
      | false =>
        by_cases hs : p.interferometry.spz
        · exact ⟨["Using stationary phase zone for coda"],
            by simp [_check, hs, h3]⟩
        · exact ⟨[], by simp [_check, hs, h3]⟩
    | false =>
      cases hwelch : p.interferometry.Welch with
      | true => simp [hwelch] at h2
      | false => exact ⟨[], by simp [_check, hwelch, h3]⟩
  · rintro rfl rfl hs h3
    simp [_check, hs, h3]

/-- Witness for C6: concrete failing and passing configurations. -/
theorem check_spec_witness :
    (∃ e, _check true false true cfgW = .error e) ∧
    _check true false false
      { cfgW with interferometry := { cfgW.interferometry with spz := true } }
      = .ok ["Using stationary phase zone for coda"] := by
  constructor
  · exact (check_spec true false true cfgW (by decide)).1 rfl rfl
  · exact (check_spec true false false
      { cfgW with interferometry :=
        { cfgW.interferometry with spz := true } } (by decide)).2.2.2.2
      rfl rfl (by decide) (by decide)

/-!
## Wavetype / operator normalization (C7)
-/

/-- C7 (code bug): an unrecognized wavetype string fails with the enum error
naming the offending value; but an unrecognized operator string builds its
error message from `PARAM['interferometry']['type']` — a key the
configuration schema does not define (the operator was read from the
`operator` key) — so the code raises `KeyError('type')` when that key is
absent, and otherwise names the unrelated `type` value instead of the
offending operator value. -/
theorem parse_operator_bug :
    parse_wavetype "bogus" =
      .error (.valueError "Unknown type of signal bogus") ∧
    parse_operator "bogus" none = .error (.keyError "type") ∧
    parse_operator "bogus" (some "legacy") =
      .error (.valueError "Unknown operator legacy") := by
  refine ⟨by decide, by decide, by decide⟩

/-!
## `group_sta` (C4)
-/

theorem group_sta_go_err {α β : Type} [DecidableEq β] (n0 : β) :
    ∀ (lst : List α) (lnum : List β) (e : Err),
      group_sta_go n0 lst lnum = .error e → e = .indexError := by
  intro lst
  induction lst with
  | nil => intro lnum e h; simp [group_sta_go] at h
  | cons st rest ih =>
    intro lnum e h
    cases lnum with
    | nil =>
      simp [group_sta_go] at h
      exact h.symm
    | cons lab labs =>
      cases hrec : group_sta_go n0 rest labs with
      | error e2 =>
        simp [group_sta_go, hrec] at h
        exact h ▸ ih labs e2 hrec
      | ok g =>
        by_cases hl : lab = n0 <;>
          simp [group_sta_go, hrec, hl] at h

theorem group_sta_go_eq {α β : Type} [DecidableEq β] (n0 : β) :
    ∀ (lst : List α) (lnum : List β), lst.length ≤ lnum.length →
      group_sta_go n0 lst lnum =
        .ok ((((lst.zip lnum).filter (fun q => q.2 = n0)).map Prod.fst),
             (((lst.zip lnum).filter
                (fun q => !decide (q.2 = n0))).map Prod.fst)) := by
  intro lst
  induction lst with
  | nil => intro lnum _; simp [group_sta_go]
  | cons st rest ih =>
    intro lnum hlen
    cases lnum with
    | nil => simp at hlen
    | cons lab labs =>
      have hlen2 : rest.length ≤ labs.length := by
        simpa using hlen
      by_cases hl : lab = n0 <;>
        simp [group_sta_go, ih labs hlen2, hl]

theorem nodup_fst_inj {α β : Type} :
    ∀ (zs : List (α × β)), (zs.map Prod.fst).Nodup →
      ∀ q q', q ∈ zs → q' ∈ zs → q.1 = q'.1 → q = q' := by
  intro zs
  induction zs with
  | nil => simp
  | cons a rest ih =>
    intro hnd q q' hq hq' hfst
    rw [List.map_cons] at hnd
    rcases List.nodup_cons.mp hnd with ⟨ha, hrest⟩
    rcases List.mem_cons.mp hq with rfl | hq2 <;>
      rcases List.mem_cons.mp hq' with rfl | hq2'
    · rfl
    · exact absurd (hfst ▸ List.mem_map_of_mem Prod.fst hq2') ha
    · exact absurd (hfst ▸ List.mem_map_of_mem Prod.fst hq2) ha
    · exact ih hrest q q' hq2 hq2' hfst

set_option linter.unnecessarySeqFocus false in
/-- C4: `group_sta` fails with the group-count error iff the number of
distinct labels is not exactly 2; with exactly two distinct labels (and a
label for every station), it succeeds, returning two lists whose
concatenation is a permutation of the input, each preserving the input's
relative order (sublists), disjoint whenever the input stations are
distinct, and with each station assigned to the group of its own label. -/
theorem group_sta_spec {α β : Type} [DecidableEq β]
    (lst : List α) (lnum : List β) :
    (group_sta lst lnum = .error (.valueError "# of group != 2.") ↔
      lnum.dedup.length ≠ 2) ∧
    (∀ n0 n1, lnum.dedup = [n0, n1] → lst.length ≤ lnum.length →
      ∃ g0 g1, group_sta lst lnum = .ok (g0, g1) ∧
        (g0 ++ g1).Perm lst ∧ g0.Sublist lst ∧ g1.Sublist lst ∧
        (lst.Nodup → ∀ x ∈ g0, x ∉ g1) ∧
        (∀ st b, (st, b) ∈ lst.zip lnum →
          ((b = n0 → st ∈ g0) ∧ (b ≠ n0 → st ∈ g1)))) := by
  constructor
  · constructor
    · intro h hlen2
      rcases hd : lnum.dedup with _ | ⟨n0, _ | ⟨n1, _ | _⟩⟩ <;>
        simp [hd] at hlen2 <;> simp [group_sta, hd] at h
      · exact absurd (group_sta_go_err n0 lst lnum _ h) (by simp)
    · intro h
      rcases hd : lnum.dedup with _ | ⟨n0, _ | ⟨n1, _ | _⟩⟩ <;>
        simp [group_sta, hd] <;> simp [hd] at h
  · intro n0 n1 hd hlen
    have hgo := group_sta_go_eq n0 lst lnum hlen
    refine ⟨((lst.zip lnum).filter (fun q => q.2 = n0)).map Prod.fst,
      ((lst.zip lnum).filter (fun q => !decide (q.2 = n0))).map Prod.fst,
      ?_, ?_, ?_, ?_, ?_, ?_⟩
    · simp [group_sta, hd, hgo]
    · have hperm := List.filter_append_perm
        (fun q : α × β => decide (q.2 = n0)) (lst.zip lnum)
      have hmap := hperm.map Prod.fst
      rw [List.map_append] at hmap
      rw [List.map_fst_zip lst lnum hlen] at hmap
      exact hmap
    · have hs : (((lst.zip lnum).filter
          (fun q => decide (q.2 = n0))).map Prod.fst).Sublist
          ((lst.zip lnum).map Prod.fst) :=
        (List.filter_sublist _).map Prod.fst
      rw [List.map_fst_zip lst lnum hlen] at hs
      exact hs
    · have hs : (((lst.zip lnum).filter
          (fun q => !decide (q.2 = n0))).map Prod.fst).Sublist
          ((lst.zip lnum).map Prod.fst) :=
        (List.filter_sublist _).map Prod.fst
      rw [List.map_fst_zip lst lnum hlen] at hs
      exact hs
    · intro hnd x hx0 hx1
      have hzn : ((lst.zip lnum).map Prod.fst).Nodup := by
        rw [List.map_fst_zip lst lnum hlen]; exact hnd
      rcases List.mem_map.mp hx0 with ⟨q, hqf, hq1⟩
      rcases List.mem_map.mp hx1 with ⟨q', hqf', hq1'⟩
      rcases List.mem_filter.mp hqf with ⟨hqz, hqp⟩
      rcases List.mem_filter.mp hqf' with ⟨hqz', hqp'⟩
      have : q = q' := nodup_fst_inj _ hzn q q' hqz hqz'
        (by rw [hq1, hq1'])
      subst this
      simp at hqp hqp'
      exact hqp' hqp
    · intro st b hmem
      constructor
      · intro hb
        exact List.mem_map_of_mem Prod.fst
          (List.mem_filter.mpr ⟨hmem, by simpa using hb⟩)
      · intro hb
        exact List.mem_map_of_mem Prod.fst
          (List.mem_filter.mpr ⟨hmem, by simpa using hb⟩)

/-- Witness for C4: three stations, labels `[1, 1, 2]`. -/
theorem group_sta_spec_witness :
    (group_sta (["x", "y", "z"] : List String) ([5] : List Nat) =
      .error (.valueError "# of group != 2.")) ∧
    ∃ g0 g1, group_sta (["x", "y", "z"] : List String)
        ([1, 1, 2] : List Nat) = .ok (g0, g1) ∧
      (g0 ++ g1).Perm ["x", "y", "z"] := by
  constructor
  · exact (group_sta_spec ["x", "y", "z"] [5]).1.mpr (by decide)
  · rcases (group_sta_spec (["x", "y", "z"] : List String)
        ([1, 1, 2] : List Nat)).2 1 2 (by decide) (by decide) with
      ⟨g0, g1, hok, hperm, _⟩
    exact ⟨g0, g1, hok, hperm⟩

/-!
## `_meta` (C8, C9)
-/

/-- The station line whose id column holds `key` that a last-wins dict ends
up storing: the last such line of the file. -/
def find_last_station (col_sta : Nat) (lines : List (List String))
    (key : String) : Option (List String) :=
  lines.reverse.find? (fun l => col l col_sta == some key)

theorem find?_append_eq {γ : Type} (p : γ → Bool) :
    ∀ (as bs : List γ),
      (as ++ bs).find? p =
        match as.find? p with
        | some x => some x
        | none => bs.find? p := by
  intro as bs
  induction as with
  | nil => simp
  | cons a rest ih =>
    by_cases h : p a <;> simp [List.find?, h, ih]

theorem dict_lookup_insert {K V : Type} [DecidableEq K] :
    ∀ (d : List (K × V)) (k k' : K) (v : V),
      dict_lookup (dict_insert d k v) k' =
        if k = k' then some v else dict_lookup d k' := by
  intro d
  induction d with
  | nil =>
    intro k k' v
    by_cases h : k = k' <;> simp [dict_insert, dict_lookup, h]
  | cons p rest ih =>
    intro k k' v
    by_cases hp : p.1 = k
    · by_cases hk : k = k'
      · simp [dict_insert, dict_lookup, hp, hk]
      · simp [dict_insert, dict_lookup, hp, hk, hp.symm ▸ hk]
    · by_cases hq : p.1 = k'
      · have hk : ¬ k = k' := fun he => hp (he ▸ hq)
        have hk2 : ¬ k' = k := fun he => hk he.symm
        simp [dict_insert, dict_lookup, hp, hq, hk, hk2]
      · simp [dict_insert, dict_lookup, hp, hq, ih]

theorem parse_station_lines_all (c1 c2 c3 c4 : Nat) :
    ∀ (lines : List (List String)) (st st' : MetaState),
      parse_station_lines c1 c2 c3 c4 lines st = .ok st' →
      st'.ALL_STATION = st.ALL_STATION ++
        lines.filterMap (fun l => col l c2) := by
  intro lines
  induction lines with
  | nil =>
    intro st st' h
    simp [parse_station_lines] at h
    simp [← h]
  | cons line rest ih =>
    intro st st' h
    cases hk : col line c2 with
    | none => simp [parse_station_lines, hk] at h
    | some key =>
      cases hlon : col line c3 with
      | none => simp [parse_station_lines, hk, hlon] at h
      | some lon =>
        cases hlat : col line c4 with
        | none => simp [parse_station_lines, hk, hlon, hlat] at h
        | some lat =>
          cases hnet : col line c1 with
          | none => simp [parse_station_lines, hk, hlon, hlat, hnet] at h
          | some net =>
            simp only [parse_station_lines, hk, hlon, hlat, hnet] at h
            have := ih _ _ h
            simp [this, hk]

theorem parse_station_lines_ok_any (c1 c2 c3 c4 : Nat) :
    ∀ (lines : List (List String)) (st st' st2 : MetaState),
      parse_station_lines c1 c2 c3 c4 lines st = .ok st' →
      ∃ st2', parse_station_lines c1 c2 c3 c4 lines st2 = .ok st2' := by
  intro lines
  induction lines with
  | nil => exact fun st st' st2 _ => ⟨st2, rfl⟩
  | cons line rest ih =>
    intro st st' st2 h
    cases hk : col line c2 with
    | none => simp [parse_station_lines, hk] at h
    | some key =>
      cases hlon : col line c3 with
      | none => simp [parse_station_lines, hk, hlon] at h
      | some lon =>
        cases hlat : col line c4 with
        | none => simp [parse_station_lines, hk, hlon, hlat] at h
        | some lat =>
          cases hnet : col line c1 with
          | none => simp [parse_station_lines, hk, hlon, hlat, hnet] at h
          | some net =>
            simp only [parse_station_lines, hk, hlon, hlat, hnet] at h
            rcases ih _ _
              { st2 with
                STNM2LOLA := dict_insert st2.STNM2LOLA key (lon, lat)
                STA2NET := dict_insert st2.STA2NET key net
                ALL_STATION := st2.ALL_STATION ++ [key] } h with ⟨r, hr⟩
            refine ⟨r, ?_⟩
            simp only [parse_station_lines, hk, hlon, hlat, hnet]
            exact hr

theorem parse_station_lines_lookup (c1 c2 c3 c4 : Nat) :
    ∀ (lines : List (List String)) (st st' : MetaState),
      parse_station_lines c1 c2 c3 c4 lines st = .ok st' →
      ∀ key,
        (dict_lookup st'.STNM2LOLA key =
          (match find_last_station c2 lines key with
           | some l =>
             (match col l c3, col l c4 with
              | some lon, some lat => some (lon, lat)
              | _, _ => none)
           | none => dict_lookup st.STNM2LOLA key)) ∧
        (dict_lookup st'.STA2NET key =
          (match find_last_station c2 lines key with
           | some l => col l c1
           | none => dict_lookup st.STA2NET key)) := by
  intro lines
  induction lines with
  | nil =>
    intro st st' h key
    simp [parse_station_lines] at h
    simp [← h, find_last_station]
  | cons line rest ih =>
    intro st st' h key
    cases hk : col line c2 with
    | none => simp [parse_station_lines, hk] at h
    | some k0 =>
      cases hlon : col line c3 with
      | none => simp [parse_station_lines, hk, hlon] at h
      | some lon =>
        cases hlat : col line c4 with
        | none => simp [parse_station_lines, hk, hlon, hlat] at h
        | some lat =>
          cases hnet : col line c1 with
          | none => simp [parse_station_lines, hk, hlon, hlat, hnet] at h
          | some net =>
            simp only [parse_station_lines, hk, hlon, hlat, hnet] at h
            have hIH := ih _ _ h key
            have hsplit : find_last_station c2 (line :: rest) key =
                match find_last_station c2 rest key with
                | some l2 => some l2
                | none =>
                  if col line c2 == some key then some line else none := by
              simp only [find_last_station, List.reverse_cons]
              rw [find?_append_eq]
              cases rest.reverse.find?
                  (fun l => col l c2 == some key) with
              | some x => rfl
              | none =>
                simp only [List.find?]
                by_cases hc : col line c2 = some key
                · have hb : (col line c2 == some key) = true :=
                    beq_iff_eq.mpr hc
                  simp [hb, hc]
                · have hb : (col line c2 == some key) = false :=
                    beq_eq_false_iff_ne.mpr hc
                  simp [hb, hc]
            cases hf : find_last_station c2 rest key with
            | some l2 =>
              rw [hf] at hIH
              exact ⟨by rw [hIH.1, hsplit, hf], by rw [hIH.2, hsplit, hf]⟩
            | none =>
              rw [hf] at hIH
              by_cases hkey : k0 = key
              · subst hkey
                constructor
                · rw [hIH.1, hsplit, hf]
                  simp [dict_lookup_insert, hk, hlon, hlat]
                · rw [hIH.2, hsplit, hf]
                  simp [dict_lookup_insert, hk, hnet]
              · constructor
                · rw [hIH.1, hsplit, hf]
                  simp [dict_lookup_insert, hk, hkey]
                · rw [hIH.2, hsplit, hf]
                  simp [dict_lookup_insert, hk, hkey]

/-- C8 (amended): `_meta` is not idempotent — re-running it appends the
station ids to the already-populated `ALL_STATION` global — but the
role-derived fields are rebuilt identically: starting from the pristine
global state, a second sequential run succeeds with identical
`RECEIVER_STATION`, `RECEIVER_GROUP` and `SOURCE_STATION`, while
`ALL_STATION` becomes the first run's list concatenated with itself. -/
theorem meta_double_run (c1 c2 c3 c4 : Nat) (files : MetaFiles)
    (s1 : MetaState)
    (h1 : _meta c1 c2 c3 c4 files metaState0 = .ok s1) :
    ∃ s2, _meta c1 c2 c3 c4 files s1 = .ok s2 ∧
      s2.RECEIVER_STATION = s1.RECEIVER_STATION ∧
      s2.RECEIVER_GROUP = s1.RECEIVER_GROUP ∧
      s2.SOURCE_STATION = s1.SOURCE_STATION ∧
      s2.ALL_STATION = s1.ALL_STATION ++ s1.ALL_STATION := by
  cases hp : parse_station_lines c1 c2 c3 c4 files.station_lines
      metaState0 with
  | error e => simp [_meta, hp] at h1
  | ok st1 =>
    simp only [_meta, hp] at h1
    have hs := Except.ok.inj h1
    rcases parse_station_lines_ok_any c1 c2 c3 c4 files.station_lines
      metaState0 st1 s1 hp with ⟨st2, hp2⟩
    have hall1 : st1.ALL_STATION =
        files.station_lines.filterMap (fun l => col l c2) := by
      simpa [metaState0] using
        parse_station_lines_all c1 c2 c3 c4 files.station_lines _ _ hp
    have hall2 := parse_station_lines_all c1 c2 c3 c4 files.station_lines
      _ _ hp2
    refine ⟨{ st2 with
        RECEIVER_STATION := rcol files.receiver_lines 0
        RECEIVER_GROUP :=
          if files.receiver_has_group then some (rcol files.receiver_lines 1)
          else none
        SOURCE_STATION := rcol files.source_lines 0 }, ?_, ?_, ?_, ?_, ?_⟩
    · simp only [_meta, hp2]
    · simp [← hs]
    · simp [← hs]
    · simp [← hs]
    · rw [hall2, ← hs]
      simp [hall1]

/-- C9 (amended): over a run of `_meta` from the pristine global state,
later station-file lines overwrite earlier entries with a last-wins policy
in the id-keyed mappings `STNM2LOLA` and `STA2NET` (a lookup returns the
values of the last line carrying that id), while `ALL_STATION` receives one
entry per line in file order — a repeated id is appended again, not
overwritten. -/
theorem meta_last_wins (c1 c2 c3 c4 : Nat) (files : MetaFiles)
    (s : MetaState) (h : _meta c1 c2 c3 c4 files metaState0 = .ok s) :
    s.ALL_STATION =
      files.station_lines.filterMap (fun l => col l c2) ∧
    (∀ key,
      dict_lookup s.STNM2LOLA key =
        (match find_last_station c2 files.station_lines key with
         | some l =>
           (match col l c3, col l c4 with
            | some lon, some lat => some (lon, lat)
            | _, _ => none)
         | none => none) ∧
      dict_lookup s.STA2NET key =
        (match find_last_station c2 files.station_lines key with
         | some l => col l c1
         | none => none)) := by
  cases hp : parse_station_lines c1 c2 c3 c4 files.station_lines
      metaState0 with
  | error e => simp [_meta, hp] at h
  | ok st1 =>
    simp only [_meta, hp] at h
    have hs := Except.ok.inj h
    subst hs
    have hlk := parse_station_lines_lookup c1 c2 c3 c4 files.station_lines
      metaState0 st1 hp
    have hall : st1.ALL_STATION =
        files.station_lines.filterMap (fun l => col l c2) := by
      simpa [metaState0] using
        parse_station_lines_all c1 c2 c3 c4 files.station_lines _ _ hp
    refine ⟨hall, ?_⟩
    intro key
    have h1 := (hlk key).1
    have h2 := (hlk key).2
    simp only [metaState0, dict_lookup] at h1 h2
    exact ⟨h1, h2⟩

/-- Concrete input files for the `_meta` evaluation theorems: two stations,
grouped receivers. -/
def filesW : MetaFiles :=
  { station_lines := [["N1", "A", "10", "20"], ["N2", "B", "30", "40"]]
    receiver_lines := [["A", "1"], ["B", "2"]]
    receiver_has_group := true
    source_lines := [["A"], ["B"]] }

/-- The state produced by one `_meta` run over `filesW` from the pristine
state. -/
def s1W : MetaState :=
  { STA2NET := [("A", "N1"), ("B", "N2")]
    STNM2LOLA := [("A", ("10", "20")), ("B", ("30", "40"))]
    ALL_STATION := ["A", "B"]
    RECEIVER_STATION := ["A", "B"]
    RECEIVER_GROUP := some ["1", "2"]
    SOURCE_STATION := ["A", "B"] }

/-- Counterexample to C8 as stated: running `_meta` twice over the same
files does not leave `ALL_STATION` identical — the second run appends the
ids again. -/
theorem meta_not_idempotent :
    (_meta 0 1 2 3 filesW metaState0).map (fun s => s.ALL_STATION) =
      .ok ["A", "B"] ∧
    ((_meta 0 1 2 3 filesW metaState0).bind
        (fun s1 => _meta 0 1 2 3 filesW s1)).map (fun s => s.ALL_STATION) =
      .ok ["A", "B", "A", "B"] ∧
    (["A", "B", "A", "B"] : List String) ≠ ["A", "B"] := by
  refine ⟨by decide, by decide, by decide⟩

/-- Witness for the amended C8 at `filesW`. -/
theorem meta_double_run_witness :
    ∃ s2, _meta 0 1 2 3 filesW s1W = .ok s2 ∧
      s2.RECEIVER_STATION = s1W.RECEIVER_STATION ∧
      s2.RECEIVER_GROUP = s1W.RECEIVER_GROUP ∧
      s2.SOURCE_STATION = s1W.SOURCE_STATION ∧
      s2.ALL_STATION = s1W.ALL_STATION ++ s1W.ALL_STATION :=
  meta_double_run 0 1 2 3 filesW s1W (by decide)

/-- A station-list file in which the id `A` appears on two lines with
different networks and coordinates. -/
def filesDup : MetaFiles :=
  { station_lines := [["N1", "A", "10", "20"], ["N2", "A", "30", "40"]]
    receiver_lines := [["A"]]
    receiver_has_group := false
    source_lines := [["A"]] }

/-- Counterexample to C9 as stated: with a duplicated station id, the
mappings take the later line's values (last-wins), but `ALL_STATION` holds
the id twice — the later line appends rather than overwriting there. -/
theorem meta_dup_counterexample :
    (_meta 0 1 2 3 filesDup metaState0).map (fun s => s.ALL_STATION) =
      .ok ["A", "A"] ∧
    (["A", "A"] : List String) ≠ ["A"] ∧
    (_meta 0 1 2 3 filesDup metaState0).map
        (fun s => dict_lookup s.STNM2LOLA "A") = .ok (some ("30", "40")) ∧
    (_meta 0 1 2 3 filesDup metaState0).map
        (fun s => dict_lookup s.STA2NET "A") = .ok (some "N2") := by
  refine ⟨by decide, by decide, by decide, by decide⟩

/-- The state produced by `_meta` over `filesDup` from the pristine state. -/
def sDup : MetaState :=
  { STA2NET := [("A", "N2")]
    STNM2LOLA := [("A", ("30", "40"))]
    ALL_STATION := ["A", "A"]
    RECEIVER_STATION := ["A"]
    RECEIVER_GROUP := none
    SOURCE_STATION := ["A"] }

/-- Witness for the amended C9 at `filesDup`. -/
theorem meta_last_wins_witness :
    sDup.ALL_STATION =
      filesDup.station_lines.filterMap (fun l => col l 1) ∧
    dict_lookup sDup.STNM2LOLA "A" = some ("30", "40") ∧
    dict_lookup sDup.STA2NET "A" = some "N2" := by
  have h := meta_last_wins 0 1 2 3 filesDup sDup (by decide)
  refine ⟨h.1, ?_, ?_⟩
  · rw [(h.2 "A").1]
    decide
  · rw [(h.2 "A").2]
    decide

end ThreeStation
